import Mathlib

/-!
Shallow embedding of the IOS::HLE::FS interface (Dolphin emulator,
Source/Core/Core/IOS/FS/FileSystem.h) and verification of the spec's
claims about it.  Machine integers (u8/u16/u32/size_t) are modelled as
Nat with explicit truncation where the code truncates: the size_t
product sizeof(T) * count wraps mod 2^64, and static_cast<u32> on it
truncates mod 2^32.
-/

namespace FS

/-- The closed result-code sum from the source (enum class ResultCode):
one success marker plus the failure kinds. -/
inductive ResultCode where
  | Success
  | Invalid
  | AccessDenied
  | SuperblockWriteFailed
  | SuperblockInitFailed
  | AlreadyExists
  | NotFound
  | FstFull
  | NoFreeSpace
  | NoFreeHandle
  | TooManyPathComponents
  | InUse
  | BadBlock
  | EccError
  | CriticalEccError
  | FileNotEmpty
  | CheckFailed
  | UnknownError
  | ShortRead
deriving DecidableEq, Repr, Fintype

/-- Common::Result<ResultCode, T>: either a typed success value or an
error code, never both, never neither. -/
inductive Result (α : Type) where
  | ok (val : α) : Result α
  | error (code : ResultCode) : Result α
deriving DecidableEq, Repr

/-- Mode from the source: enum class Mode : u8 with None = 0, Read = 1,
Write = 2, ReadWrite = 3. -/
inductive Mode where
  | None
  | Read
  | Write
  | ReadWrite
deriving DecidableEq, Repr, Fintype

/-- The underlying u8 value of each Mode enumerator, as written in the
source. -/
def Mode.toU8 : Mode → Nat
  | .None => 0
  | .Read => 1
  | .Write => 2
  | .ReadWrite => 3

/-- Modelled from the spec: the requested access is permitted exactly
when its bits are a subset of the governing mode's bits (the check
itself lives in the engine implementation, which is not under src/;
only the Mode encoding is source code). -/
def Mode.allows (governing requested : Mode) : Bool :=
  requested.toU8 &&& governing.toU8 == requested.toU8

/-- Metadata from the source (field `attribute` renamed to `attr`
because `attribute` is a Lean keyword). -/
structure Metadata where
  uid : Nat
  gid : Nat
  attr : Nat
  owner_mode : Mode
  group_mode : Mode
  other_mode : Mode
  is_file : Bool
  size : Nat
  fst_index : Nat
deriving DecidableEq, Repr

/-- NandStats from the source. -/
structure NandStats where
  cluster_size : Nat
  free_clusters : Nat
  used_clusters : Nat
  bad_clusters : Nat
  reserved_clusters : Nat
  free_inodes : Nat
  used_inodes : Nat
deriving DecidableEq, Repr

/-- static_cast<u32>: truncation of a size_t value to 32 bits. -/
def u32cast (x : Nat) : Nat := x % 4294967296

/-- size_t (64-bit) arithmetic: a product wraps mod 2^64. -/
def u64cast (x : Nat) : Nat := x % 18446744073709551616

/-- The product sizeof(T) * count as the source computes it, in size_t
arithmetic: it wraps mod 2^64. -/
def sizeProduct (sizeT count : Nat) : Nat := u64cast (sizeT * count)

/-- The byte count the typed helpers pass to the byte-level primitives:
static_cast<u32>(sizeof(T) * count), as written in the source, with the
product itself computed in size_t arithmetic. -/
def requestSize (sizeT count : Nat) : Nat := u32cast (sizeProduct sizeT count)

/-- FileHandle::Read from the source.  `readBytes` stands for the call
m_fs->ReadBytesFromFile(*m_fd, ptr, size): it maps the requested byte
count to the byte-level result.  The code requests
static_cast<u32>(sizeof(T) * count) bytes, propagates a byte-level
error, returns ShortRead when the transferred count differs from the
size_t product sizeof(T) * count (which wraps mod 2^64), and otherwise
succeeds with `count`. -/
def FileHandle.Read (readBytes : Nat → Result Nat) (sizeT count : Nat) :
    Result Nat :=
  match readBytes (requestSize sizeT count) with
  | .error e => .error e
  | .ok b => if b = sizeProduct sizeT count then .ok count
    else .error .ShortRead

/-- FileHandle::Write from the source.  `writeBytes` stands for the call
m_fs->WriteBytesToFile(*m_fd, ptr, size).  The code requests
static_cast<u32>(sizeof(T) * count) bytes, propagates a byte-level
error, and otherwise succeeds with `count` (no short-write check). -/
def FileHandle.Write (writeBytes : Nat → Result Nat) (sizeT count : Nat) :
    Result Nat :=
  match writeBytes (requestSize sizeT count) with
  | .error e => .error e
  | .ok _ => .ok count

/-- Modelled from the spec: the permission evaluation order inside
FileSystem::OpenFile (whose body is not under src/; the header only
declares it).  "if caller uid equals entry uid, owner_mode governs;
else if caller gid equals entry gid, group_mode governs; else
other_mode governs". -/
def governingMode (callerUid callerGid : Nat) (m : Metadata) : Mode :=
  if callerUid = m.uid then m.owner_mode
  else if callerGid = m.gid then m.group_mode
  else m.other_mode

/-- Modelled from the spec: the access check inside FileSystem::OpenFile.
The requested access bits must be a subset of the governing mode's
bits, else the operation fails with AccessDenied. -/
def checkAccess (callerUid callerGid : Nat) (m : Metadata) (requested : Mode) :
    Result Unit :=
  if Mode.allows (governingMode callerUid callerGid m) requested then .ok ()
  else .error .AccessDenied

/-- Modelled from the spec: FileSystem::ReadBytesFromFile is pure
virtual in src/ (only declared in the header).  A raw byte read
transfers bytes from the descriptor's current offset up to the file's
size: min(size, fileSize - offset) bytes; at or past end-of-file that
is zero bytes transferred, reported as success, never as an error. -/
def ReadBytesFromFile (fileSize offset size : Nat) : Result Nat :=
  .ok (min size (fileSize - offset))

/-- The binding state of a FileHandle: m_fs plus m_fd, of which only the
optional descriptor id matters to the lifecycle claims. -/
structure FileHandleState where
  m_fd : Option Nat
deriving DecidableEq, Repr

/-- Modelled from the spec: the FileHandle destructor body is not under
src/ (only declared).  Destruction closes the bound descriptor exactly
once; an unbound (released or moved-from) handle closes nothing and
that is never an error.  The returned list is the sequence of Close
calls the destructor issues. -/
def FileHandle.destructorCloses (h : FileHandleState) : List Nat :=
  match h.m_fd with
  | some fd => [fd]
  | none => []

/-- Modelled from the spec: FileHandle::Release detaches the binding
without closing, handing the descriptor id to the caller. -/
def FileHandle.Release (h : FileHandleState) : Option Nat × FileHandleState :=
  (h.m_fd, { m_fd := none })

/-- Modelled from the spec: the move constructor takes over the binding
and leaves the moved-from handle unbound. -/
def FileHandle.moveFrom (h : FileHandleState) :
    FileHandleState × FileHandleState :=
  ({ m_fd := h.m_fd }, { m_fd := none })

/-- An entry of the engine's entry table: a path (component codes) and
its metadata. -/
structure FSEntry where
  path : List Nat
  metadata : Metadata
deriving DecidableEq, Repr

/-- An open descriptor in the handle table: id, path and current
offset. -/
structure HandleEntry where
  fd : Nat
  path : List Nat
  offset : Nat
deriving DecidableEq, Repr

/-- Modelled from the spec: the engine state that a snapshot captures —
the entry table, the quota counters and the handle table. -/
structure EngineState where
  entries : List FSEntry
  nand : NandStats
  handles : List HandleEntry
deriving DecidableEq, Repr

/-- Decode a Mode from its u8 value. -/
def decodeMode : Nat → Option Mode
  | 0 => some .None
  | 1 => some .Read
  | 2 => some .Write
  | 3 => some .ReadWrite
  | _ => none

/-- Serialize a Metadata record into the snapshot stream. -/
def encodeMetadata (m : Metadata) : List Nat :=
  [m.uid, m.gid, m.attr, m.owner_mode.toU8, m.group_mode.toU8,
   m.other_mode.toU8, cond m.is_file 1 0, m.size, m.fst_index]

/-- Deserialize a Metadata record, returning it with the unread
remainder of the stream. -/
def decodeMetadata : List Nat → Option (Metadata × List Nat)
  | u :: g :: a :: om :: gm :: tm :: f :: sz :: fi :: rest =>
    match decodeMode om, decodeMode gm, decodeMode tm with
    | some o, some q, some t =>
      some ({ uid := u, gid := g, attr := a, owner_mode := o,
              group_mode := q, other_mode := t, is_file := f == 1,
              size := sz, fst_index := fi }, rest)
    | _, _, _ => none
  | _ => none

/-- Serialize a length-prefixed list of raw values. -/
def encodeNats (xs : List Nat) : List Nat := xs.length :: xs

/-- Read exactly n values off the stream. -/
def decodeTake : Nat → List Nat → Option (List Nat × List Nat)
  | 0, l => some ([], l)
  | _ + 1, [] => none
  | n + 1, x :: l =>
    match decodeTake n l with
    | some (xs, rest) => some (x :: xs, rest)
    | none => none

/-- Serialize one entry-table entry. -/
def encodeEntry (e : FSEntry) : List Nat :=
  encodeNats e.path ++ encodeMetadata e.metadata

/-- Deserialize one entry-table entry. -/
def decodeEntry : List Nat → Option (FSEntry × List Nat)
  | [] => none
  | n :: l =>
    match decodeTake n l with
    | some (p, rest) =>
      match decodeMetadata rest with
      | some (m, rest2) => some ({ path := p, metadata := m }, rest2)
      | none => none
    | none => none

/-- Serialize one handle-table entry. -/
def encodeHandle (h : HandleEntry) : List Nat :=
  h.fd :: h.offset :: encodeNats h.path

/-- Deserialize one handle-table entry. -/
def decodeHandle : List Nat → Option (HandleEntry × List Nat)
  | fd :: off :: n :: l =>
    match decodeTake n l with
    | some (p, rest) => some ({ fd := fd, path := p, offset := off }, rest)
    | none => none
  | _ => none

/-- Serialize a list of items back to back. -/
def encodeItems {α : Type} (enc : α → List Nat) : List α → List Nat
  | [] => []
  | x :: xs => enc x ++ encodeItems enc xs

/-- Deserialize exactly n items off the stream. -/
def decodeItems {α : Type} (dec : List Nat → Option (α × List Nat)) :
    Nat → List Nat → Option (List α × List Nat)
  | 0, l => some ([], l)
  | n + 1, l =>
    match dec l with
    | some (a, rest) =>
      match decodeItems dec n rest with
      | some (as, rest2) => some (a :: as, rest2)
      | none => none
    | none => none

/-- Serialize the quota counters. -/
def encodeNand (s : NandStats) : List Nat :=
  [s.cluster_size, s.free_clusters, s.used_clusters, s.bad_clusters,
   s.reserved_clusters, s.free_inodes, s.used_inodes]

/-- Deserialize the quota counters. -/
def decodeNand : List Nat → Option (NandStats × List Nat)
  | cs :: fc :: uc :: bc :: rc :: fi :: ui :: rest =>
    some ({ cluster_size := cs, free_clusters := fc, used_clusters := uc,
            bad_clusters := bc, reserved_clusters := rc,
            free_inodes := fi, used_inodes := ui }, rest)
  | _ => none

/-- Serialize the whole engine state: entry table, quota counters,
handle table. -/
def encodeState (s : EngineState) : List Nat :=
  (s.entries.length :: encodeItems encodeEntry s.entries) ++
    encodeNand s.nand ++
    (s.handles.length :: encodeItems encodeHandle s.handles)

/-- Deserialize the whole engine state. -/
def decodeState : List Nat → Option (EngineState × List Nat)
  | [] => none
  | n :: l =>
    match decodeItems decodeEntry n l with
    | some (es, rest) =>
      match decodeNand rest with
      | some (nd, rest2) =>
        match rest2 with
        | [] => none
        | k :: rest3 =>
          match decodeItems decodeHandle k rest3 with
          | some (hs, rest4) =>
            some ({ entries := es, nand := nd, handles := hs }, rest4)
          | none => none
      | none => none
    | none => none

/-- Modelled from the spec: FileSystem::DoState (pure virtual in src/)
in save mode — a versioned binary snapshot of the entry table, quota
counters and handle table. -/
def doStateSave (version : Nat) (s : EngineState) : List Nat :=
  version :: encodeState s

/-- Modelled from the spec: DoState in load mode — an incompatible
version is detected and rejected, otherwise the full state is
decoded. -/
def doStateLoad (version : Nat) : List Nat → Option EngineState
  | [] => none
  | v :: blob =>
    if v = version then
      match decodeState blob with
      | some (s, []) => some s
      | _ => none
    else none

/-- Modelled from the spec: GetMetadata as a read-only view of the entry
table (its engine implementation is not under src/). -/
def GetMetadata (s : EngineState) (path : List Nat) : Result Metadata :=
  match s.entries.find? (fun e => e.path == path) with
  | some e => .ok e.metadata
  | none => .error .NotFound

/-- Modelled from the spec: ReadDirectory as a read-only view listing
the immediate children of a directory path. -/
def ReadDirectory (s : EngineState) (path : List Nat) :
    Result (List (List Nat)) :=
  .ok ((s.entries.filter (fun e =>
      e.path.length == path.length + 1 &&
      e.path.take path.length == path)).map
    (fun e => e.path.drop path.length))

/-- Modelled from the spec: GetNandStats as a read-only view of the
quota counters. -/
def GetNandStats (s : EngineState) : Result NandStats := .ok s.nand

/-- A concrete Metadata record used in witnesses. -/
def exampleMetadata : Metadata :=
  { uid := 5, gid := 2, attr := 0, owner_mode := .Read,
    group_mode := .ReadWrite, other_mode := .None, is_file := true,
    size := 3, fst_index := 0 }

/-- Concrete quota counters used in witnesses. -/
def exampleNand : NandStats :=
  { cluster_size := 16384, free_clusters := 10, used_clusters := 5,
    bad_clusters := 0, reserved_clusters := 1, free_inodes := 20,
    used_inodes := 4 }

/-- A concrete engine state used to witness the snapshot round trip. -/
def exampleState : EngineState :=
  { entries := [{ path := [1], metadata := exampleMetadata }],
    nand := exampleNand,
    handles := [{ fd := 0, path := [1], offset := 0 }] }

end FS

namespace FS

/-- The requested byte count collapses to the product mod 2^32: the
mod-2^64 wrap of the size_t product followed by static_cast<u32> equals
a single mod 2^32. -/
theorem requestSize_eq_mod (sizeT count : Nat) :
    requestSize sizeT count = (sizeT * count) % 4294967296 := by
  simp [requestSize, sizeProduct, u32cast, u64cast]
  exact Nat.mod_mod_of_dvd _ ⟨4294967296, rfl⟩

/-- C1 counterexample: the claim fails where the size_t product wraps.
With sizeof(T) = 2 and count = 2^63 the program requests 0 bytes; a
successful byte-level read of 0 bytes transfers fewer than the
mathematical product 2 * 2^63, yet Read returns success with count, not
ShortRead. -/
theorem fileHandle_read_exact_product_counterexample :
    FileHandle.Read (fun _ => .ok 0) 2 9223372036854775808
      = .ok 9223372036854775808 ∧
    (0 : Nat) < 2 * 9223372036854775808 := by
  constructor
  · rfl
  · decide

/-- C1 amended: the comparison is against the product as the source
computes it, in size_t arithmetic.  If the byte-level read called by
the typed FileHandle::Read succeeds but transfers fewer bytes than
(count * sizeof(T)) mod 2^64, Read returns ShortRead and never a
success value; if it transfers exactly (count * sizeof(T)) mod 2^64
bytes, Read succeeds with value count; and if the byte-level read fails
with some error kind, Read returns that same kind. -/
theorem fileHandle_read_error_handling (readBytes : Nat → Result Nat)
    (sizeT count b : Nat) (e : ResultCode) :
    (readBytes (requestSize sizeT count) = .ok b →
      b < sizeProduct sizeT count →
      FileHandle.Read readBytes sizeT count = .error .ShortRead ∧
      ∀ r, FileHandle.Read readBytes sizeT count ≠ .ok r) ∧
    (readBytes (requestSize sizeT count) = .ok (sizeProduct sizeT count) →
      FileHandle.Read readBytes sizeT count = .ok count) ∧
    (readBytes (requestSize sizeT count) = .error e →
      FileHandle.Read readBytes sizeT count = .error e) := by
  refine ⟨fun h hlt => ?_, fun h => ?_, fun h => ?_⟩
  · have hne : b ≠ sizeProduct sizeT count := Nat.ne_of_lt hlt
    constructor
    · simp [FileHandle.Read, h, hne]
    · intro r
      simp [FileHandle.Read, h, hne]
  · simp [FileHandle.Read, h]
  · simp [FileHandle.Read, h]

/-- Witness for C1: with sizeof(T) = 4, count = 2 and a byte-level read
transferring only 3 of the 8 requested bytes, the typed read fails with
ShortRead; with a full 8-byte transfer it succeeds with 2; and a
byte-level BadBlock error is propagated unchanged. -/
theorem fileHandle_read_error_handling_witness :
    FileHandle.Read (fun _ => .ok 3) 4 2 = .error .ShortRead ∧
    FileHandle.Read (fun _ => .ok 8) 4 2 = .ok 2 ∧
    FileHandle.Read (fun _ => .error .BadBlock) 4 2 = .error .BadBlock :=
  ⟨((fileHandle_read_error_handling (fun _ => .ok 3) 4 2 3 .BadBlock).1
      rfl (by decide)).1,
   (fileHandle_read_error_handling (fun _ => .ok 8) 4 2 8 .BadBlock).2.1 rfl,
   (fileHandle_read_error_handling (fun _ => .error .BadBlock) 4 2 8
      .BadBlock).2.2 rfl⟩

/-- C3: the result type is a closed sum.  ResultCode has exactly 19
values — one success marker plus 18 distinct failure kinds — and every
Result is exactly one of a typed success value or an error kind, never
both, never neither. -/
theorem resultCode_closed_sum :
    Fintype.card ResultCode = 19 ∧
    (Finset.univ.filter (fun c : ResultCode => c ≠ .Success)).card = 18 ∧
    (∀ r : Result Nat, (∃ v, r = .ok v) ∨ (∃ e, r = .error e)) ∧
    (∀ (v : Nat) (e : ResultCode), (Result.ok v : Result Nat) ≠ .error e) := by
  refine ⟨by decide, by decide, fun r => ?_, fun v e h => by cases h⟩
  cases r with
  | ok v => exact Or.inl ⟨v, rfl⟩
  | error e => exact Or.inr ⟨e, rfl⟩

/-- C6: Mode is a 2-bit capability with bit0 = read and bit1 = write:
None = 0, Read = 1, Write = 2, ReadWrite = 3; an access is allowed
exactly when its bits are a subset of the governing mode's bits. -/
theorem mode_two_bit_capability :
    Mode.toU8 .None = 0 ∧ Mode.toU8 .Read = 1 ∧
    Mode.toU8 .Write = 2 ∧ Mode.toU8 .ReadWrite = 3 ∧
    (∀ m : Mode, Mode.toU8 m < 4) ∧
    (∀ m : Mode, (Mode.toU8 m).testBit 0 = true ↔ m = .Read ∨ m = .ReadWrite) ∧
    (∀ m : Mode, (Mode.toU8 m).testBit 1 = true ↔ m = .Write ∨ m = .ReadWrite) ∧
    (∀ g r : Mode, Mode.allows g r = true ↔
      ∀ i < 8, (Mode.toU8 r).testBit i = true → (Mode.toU8 g).testBit i = true) := by
  refine ⟨rfl, rfl, rfl, rfl, by decide, by decide, by decide, by decide⟩

/-- C2: permission evaluation order.  If caller uid equals entry uid,
owner_mode alone governs; else if caller gid equals entry gid,
group_mode alone governs; else other_mode governs; the requested access
bits must be a subset of the governing mode's bits or the operation
fails with AccessDenied.  In particular an owner-matched caller is
denied when owner_mode disallows the request, regardless of
group_mode. -/
theorem openFile_permission_order (cu cg : Nat) (m : Metadata) (req : Mode) :
    (cu = m.uid → governingMode cu cg m = m.owner_mode) ∧
    (cu ≠ m.uid → cg = m.gid → governingMode cu cg m = m.group_mode) ∧
    (cu ≠ m.uid → cg ≠ m.gid → governingMode cu cg m = m.other_mode) ∧
    (checkAccess cu cg m req = .ok () ↔
      Mode.allows (governingMode cu cg m) req = true) ∧
    (checkAccess cu cg m req = .ok () ∨
      checkAccess cu cg m req = .error .AccessDenied) ∧
    (cu = m.uid → Mode.allows m.owner_mode req = false →
      checkAccess cu cg m req = .error .AccessDenied) := by
  refine ⟨fun h => ?_, fun h h2 => ?_, fun h h2 => ?_, ?_, ?_, fun h hA => ?_⟩
  · simp [governingMode, h]
  · simp [governingMode, h, h2]
  · simp [governingMode, h, h2]
  · by_cases hA : Mode.allows (governingMode cu cg m) req <;>
      simp [checkAccess, hA]
  · by_cases hA : Mode.allows (governingMode cu cg m) req <;>
      simp [checkAccess, hA]
  · have hg : governingMode cu cg m = m.owner_mode := by simp [governingMode, h]
    simp [checkAccess, hg, hA]

/-- Witness for C2, the spec's own example: entry uid 5 / gid 2 with
owner_mode Read and group_mode ReadWrite; a caller with uid 5 and gid 2
requesting Write is denied, because owner_mode governs despite
group_mode allowing the write. -/
theorem openFile_permission_order_witness :
    checkAccess 5 2
      { uid := 5, gid := 2, attr := 0, owner_mode := .Read,
        group_mode := .ReadWrite, other_mode := .None,
        is_file := true, size := 0, fst_index := 0 } .Write
      = .error .AccessDenied :=
  (openFile_permission_order 5 2
      { uid := 5, gid := 2, attr := 0, owner_mode := .Read,
        group_mode := .ReadWrite, other_mode := .None,
        is_file := true, size := 0, fst_index := 0 } .Write).2.2.2.2.2
    rfl (by decide)

/-- C7 counterexample: the typed helpers do not always request exactly
sizeof(T) * count bytes.  With sizeof(T) = 2 and count = 2^31 the
requested byte count is static_cast<u32>(2 * 2^31) = 0, not 2^32. -/
theorem typed_request_size_counterexample :
    requestSize 2 2147483648 = 0 ∧ (2 * 2147483648 : Nat) ≠ 0 := by
  constructor
  · rfl
  · decide

/-- C7 amended: the typed helpers request
(sizeof(T) * count) mod 2^32 bytes from the byte-level primitives —
exactly sizeof(T) * count whenever that product fits in 32 bits — and
on a successful byte-level write the typed Write returns the element
count as its success value. -/
theorem typed_helpers_request_size (writeBytes : Nat → Result Nat)
    (sizeT count b : Nat) :
    requestSize sizeT count = (sizeT * count) % 4294967296 ∧
    (sizeT * count < 4294967296 → requestSize sizeT count = sizeT * count) ∧
    (writeBytes (requestSize sizeT count) = .ok b →
      FileHandle.Write writeBytes sizeT count = .ok count) := by
  refine ⟨requestSize_eq_mod sizeT count, fun h => ?_, fun h => ?_⟩
  · rw [requestSize_eq_mod, Nat.mod_eq_of_lt h]
  · simp [FileHandle.Write, h]

/-- Witness for the amended C7: with sizeof(T) = 4 and count = 2 the
product fits in 32 bits, so exactly 8 bytes are requested, and a
successful byte-level write makes the typed Write succeed with 2. -/
theorem typed_helpers_request_size_witness :
    requestSize 4 2 = 4 * 2 ∧
    FileHandle.Write (fun _ => .ok 8) 4 2 = .ok 2 :=
  ⟨(typed_helpers_request_size (fun _ => .ok 8) 4 2 8).2.1 (by decide),
   (typed_helpers_request_size (fun _ => .ok 8) 4 2 8).2.2 rfl⟩

/-- C9 counterexample: the claim's domain includes products that wrap
the size_t arithmetic itself.  With sizeof(T) = 2 and count = 2^63 the
product is at least 2^32, yet a successful 0-byte transfer equals the
wrapped product, so Read returns success — it is not true that Read can
then never return success. -/
theorem typed_read_overflow_counterexample :
    (4294967296 : Nat) ≤ 2 * 9223372036854775808 ∧
    FileHandle.Read (fun _ => .ok 0) 2 9223372036854775808
      = .ok 9223372036854775808 := by
  constructor
  · decide
  · rfl

/-- C9 amended: when 2^32 ≤ sizeof(T) * count < 2^64, the typed helpers
pass the product truncated modulo 2^32 to the byte-level primitives;
since the byte-level transferred count is a u32 (< 2^32) it can never
equal the untruncated product, so FileHandle::Read can never succeed —
a successful byte-level read yields ShortRead — while FileHandle::Write
still succeeds with the full count. -/
theorem typed_read_overflow_truncation (readBytes writeBytes : Nat → Result Nat)
    (sizeT count : Nat) (hov : 4294967296 ≤ sizeT * count)
    (hub : sizeT * count < 18446744073709551616)
    (hbound : ∀ n b, readBytes n = .ok b → b < 4294967296) :
    requestSize sizeT count = (sizeT * count) % 4294967296 ∧
    (∀ r, FileHandle.Read readBytes sizeT count ≠ .ok r) ∧
    (∀ b, readBytes (requestSize sizeT count) = .ok b →
      FileHandle.Read readBytes sizeT count = .error .ShortRead) ∧
    (∀ b, writeBytes (requestSize sizeT count) = .ok b →
      FileHandle.Write writeBytes sizeT count = .ok count) := by
  have hprod : sizeProduct sizeT count = sizeT * count := by
    simp [sizeProduct, u64cast, Nat.mod_eq_of_lt hub]
  have hshort : ∀ b, readBytes (requestSize sizeT count) = .ok b →
      FileHandle.Read readBytes sizeT count = .error .ShortRead := by
    intro b h
    have hb : b < 4294967296 := hbound _ _ h
    have hne : b ≠ sizeProduct sizeT count := by
      rw [hprod]
      exact Nat.ne_of_lt (lt_of_lt_of_le hb hov)
    simp [FileHandle.Read, h, hne]
  refine ⟨requestSize_eq_mod sizeT count, fun r => ?_, hshort, fun b h => ?_⟩
  · cases hr : readBytes (requestSize sizeT count) with
    | ok b => simp [hshort b hr]
    | error e => simp [FileHandle.Read, hr]
  · simp [FileHandle.Write, h]

/-- Witness for the amended C9: sizeof(T) = 2, count = 2^31 (product
2^32, below 2^64), with byte-level primitives that report 0 bytes
transferred: the typed read fails ShortRead and the typed write
succeeds with the full count. -/
theorem typed_read_overflow_truncation_witness :
    FileHandle.Read (fun _ => .ok 0) 2 2147483648 = .error .ShortRead ∧
    FileHandle.Write (fun _ => .ok 0) 2 2147483648 = .ok 2147483648 :=
  ⟨(typed_read_overflow_truncation (fun _ => .ok 0) (fun _ => .ok 0)
      2 2147483648 (by decide) (by decide)
      (fun n b h => by cases h; decide)).2.2.1 0 rfl,
   (typed_read_overflow_truncation (fun _ => .ok 0) (fun _ => .ok 0)
      2 2147483648 (by decide) (by decide)
      (fun n b h => by cases h; decide)).2.2.2 0 rfl⟩

/-- C10: the typed FileHandle::Write has no short-write check: whenever
the byte-level write succeeds — even having transferred fewer than
sizeof(T) * count bytes — the typed Write returns success with the full
element count. -/
theorem write_no_short_write_check (writeBytes : Nat → Result Nat)
    (sizeT count b : Nat) (_hb : b < sizeT * count)
    (h : writeBytes (requestSize sizeT count) = .ok b) :
    FileHandle.Write writeBytes sizeT count = .ok count := by
  simp [FileHandle.Write, h]

/-- Witness for C10: sizeof(T) = 4, count = 2, byte-level write reports
only 3 of 8 bytes written, yet the typed Write succeeds with 2. -/
theorem write_no_short_write_check_witness :
    FileHandle.Write (fun _ => .ok 3) 4 2 = .ok 2 :=
  write_no_short_write_check (fun _ => .ok 3) 4 2 3 (by decide) rfl

/-- C5: a raw byte read from an offset at or past end-of-file returns
success with zero bytes transferred, never an error kind. -/
theorem readBytes_at_eof_zero (fileSize offset size : Nat)
    (h : fileSize ≤ offset) :
    ReadBytesFromFile fileSize offset size = .ok 0 ∧
    ∀ e, ReadBytesFromFile fileSize offset size ≠ .error e := by
  have hz : fileSize - offset = 0 := Nat.sub_eq_zero_of_le h
  constructor
  · simp [ReadBytesFromFile, hz]
  · intro e
    simp [ReadBytesFromFile]

/-- Witness for C5: a 10-byte read of a 4-byte file at offset 5 (past
end-of-file) succeeds with zero bytes transferred. -/
theorem readBytes_at_eof_zero_witness :
    ReadBytesFromFile 4 5 10 = .ok 0 :=
  (readBytes_at_eof_zero 4 5 10 (by decide)).1

/-- C8: a still-bound FileHandle closes its descriptor exactly once on
destruction; destroying a released or moved-from handle closes nothing;
and Release detaches the binding without closing, handing the id to the
caller so the descriptor is not closed afterwards. -/
theorem fileHandle_lifecycle (h : FileHandleState) (fd : Nat) :
    (h.m_fd = some fd → FileHandle.destructorCloses h = [fd]) ∧
    (h.m_fd = none → FileHandle.destructorCloses h = []) ∧
    (FileHandle.Release h).1 = h.m_fd ∧
    FileHandle.destructorCloses (FileHandle.Release h).2 = [] ∧
    (FileHandle.moveFrom h).1.m_fd = h.m_fd ∧
    FileHandle.destructorCloses (FileHandle.moveFrom h).2 = [] := by
  refine ⟨fun hb => ?_, fun hb => ?_, rfl, rfl, rfl, rfl⟩
  · simp [FileHandle.destructorCloses, hb]
  · simp [FileHandle.destructorCloses, hb]

/-- Witness for C8: a handle bound to descriptor 7 closes exactly [7] on
destruction, and after Release it closes nothing while the caller
receives id 7. -/
theorem fileHandle_lifecycle_witness :
    FileHandle.destructorCloses { m_fd := some 7 } = [7] ∧
    (FileHandle.Release { m_fd := some 7 }).1 = some 7 ∧
    FileHandle.destructorCloses (FileHandle.Release { m_fd := some 7 }).2 = [] :=
  ⟨(fileHandle_lifecycle { m_fd := some 7 } 7).1 rfl,
   (fileHandle_lifecycle { m_fd := some 7 } 7).2.2.1,
   (fileHandle_lifecycle { m_fd := some 7 } 7).2.2.2.1⟩

theorem decodeMode_toU8 (m : Mode) : decodeMode m.toU8 = some m := by
  cases m <;> rfl

theorem decodeMetadata_encode (m : Metadata) (rest : List Nat) :
    decodeMetadata (encodeMetadata m ++ rest) = some (m, rest) := by
  obtain ⟨u, g, a, om, gm, tm, f, sz, fi⟩ := m
  cases f <;> cases om <;> cases gm <;> cases tm <;> rfl

theorem decodeTake_append (xs rest : List Nat) :
    decodeTake xs.length (xs ++ rest) = some (xs, rest) := by
  induction xs with
  | nil => rfl
  | cons x xs ih => simp [decodeTake, ih]

theorem decodeEntry_encode (e : FSEntry) (rest : List Nat) :
    decodeEntry (encodeEntry e ++ rest) = some (e, rest) := by
  obtain ⟨p, m⟩ := e
  simp [encodeEntry, encodeNats, decodeEntry, List.append_assoc,
        decodeTake_append, decodeMetadata_encode]

theorem decodeHandle_encode (h : HandleEntry) (rest : List Nat) :
    decodeHandle (encodeHandle h ++ rest) = some (h, rest) := by
  obtain ⟨fd, p, off⟩ := h
  simp [encodeHandle, encodeNats, decodeHandle, decodeTake_append]

theorem decodeItems_encode {α : Type} (enc : α → List Nat)
    (dec : List Nat → Option (α × List Nat))
    (hround : ∀ a rest, dec (enc a ++ rest) = some (a, rest))
    (xs : List α) (rest : List Nat) :
    decodeItems dec xs.length (encodeItems enc xs ++ rest) =
      some (xs, rest) := by
  induction xs with
  | nil => rfl
  | cons x xs ih =>
    simp [encodeItems, decodeItems, List.append_assoc, hround, ih]

theorem decodeNand_encode (s : NandStats) (rest : List Nat) :
    decodeNand (encodeNand s ++ rest) = some (s, rest) := rfl

theorem decodeState_encode (s : EngineState) (rest : List Nat) :
    decodeState (encodeState s ++ rest) = some (s, rest) := by
  obtain ⟨es, nd, hs⟩ := s
  have h1 := decodeItems_encode encodeEntry decodeEntry decodeEntry_encode
  have h2 := decodeItems_encode encodeHandle decodeHandle decodeHandle_encode
  simp [encodeState, decodeState, List.append_assoc, h1, h2,
        decodeNand_encode]

/-- C4: a snapshot produced by DoState restores to exactly the saved
state, so GetMetadata, ReadDirectory and GetNandStats return results
identical to their pre-snapshot values for every entry untouched since
the snapshot; the snapshot round-trips bit-exact for unchanged state,
and an incompatible version is detected and rejected. -/
theorem doState_roundtrip (v w : Nat) (s : EngineState) :
    doStateLoad v (doStateSave v s) = some s ∧
    (∀ t, doStateLoad v (doStateSave v s) = some t →
      (∀ p, GetMetadata t p = GetMetadata s p) ∧
      (∀ p, ReadDirectory t p = ReadDirectory s p) ∧
      GetNandStats t = GetNandStats s) ∧
    (w ≠ v → doStateLoad w (doStateSave v s) = none) := by
  have h := decodeState_encode s []
  rw [List.append_nil] at h
  have hload : doStateLoad v (doStateSave v s) = some s := by
    simp [doStateSave, doStateLoad, h]
  refine ⟨hload, fun t ht => ?_, fun hw => ?_⟩
  · rw [hload] at ht
    injection ht with ht
    subst ht
    exact ⟨fun p => rfl, fun p => rfl, rfl⟩
  · simp [doStateSave, doStateLoad, Ne.symm hw]

/-- Witness for C4: a concrete one-file engine state saved at version 1
restores bit-exact, while loading the same snapshot as version 2 is
rejected. -/
theorem doState_roundtrip_witness :
    doStateLoad 1 (doStateSave 1 exampleState) = some exampleState ∧
    doStateLoad 2 (doStateSave 1 exampleState) = none :=
  ⟨(doState_roundtrip 1 2 exampleState).1,
   (doState_roundtrip 1 2 exampleState).2.2 (by decide)⟩

end FS
